import Mathlib

/-!
Verification of the event/render loop of `src/program.rs`
(`Program`, `EventLoop` over glutin/conrod).

The embedding models:
  * `EventLoop` (fields `time_step`, `last_update`, `ui_needs_update`) and its
    method `next`, which throttles to the target interval, polls pending
    events, optionally blocks for one event when idle, and resets its state;
  * `Program` with `process_events` (per-batch translation/delivery plus
    close detection), `render` (skip when the Ui reports no change, panic on
    backend failure), and the `run` loop.

Time (`std::time::Instant` / `Duration`) is modelled by natural-number ticks.
The platform event source (`glutin::EventsLoop`) is modelled by an explicit
environment `NextEnv` that supplies the entry/exit clock readings, the events
drained by the non-blocking poll, and the event eventually delivered by the
blocking `run_forever` wait.  The conrod translation `conrod_winit::convert_event`
is an external collaborator and is passed as an abstract function
`convert : Event → Option UiEvent`.
-/

/-- Raw window-level events (`glutin::WindowEvent`): the close request is the
only case `process_events` inspects; everything else is `other`. -/
inductive WindowEvent where
  | closeRequested
  | other (tag : Nat)
deriving DecidableEq, Repr

/-- Raw platform events (`glutin::Event`): window events and any other
(device, awakened, ...) event. -/
inductive Event where
  | window (we : WindowEvent)
  | device (tag : Nat)
deriving DecidableEq, Repr

/-- `true` exactly on `Event::WindowEvent { event: WindowEvent::CloseRequested, .. }`. -/
def Event.isCloseRequested : Event → Bool
  | .window .closeRequested => true
  | _ => false

/-- UI-domain events (`conrod_core::event::Input`), abstracted. -/
abbrev UiEvent := Nat

/-- The `EventLoop` struct of `program.rs`: target interval, time of the last
batch release, and the pending-redraw flag. -/
structure EventLoop where
  time_step : Nat
  last_update : Nat
  ui_needs_update : Bool
deriving DecidableEq, Repr

/-- Environment of one call to `EventLoop::next`: the clock reading at entry
(`Instant::now()` before the throttle check), the events the non-blocking
`poll_events` drains, the first event `run_forever` would deliver when the
idle wait is entered, and the clock reading at the final
`self.last_update = Instant::now()`. -/
structure NextEnv where
  now_entry : Nat
  polled : List Event
  blocking_event : Event
  now_exit : Nat
deriving DecidableEq, Repr

/-- Result of one call to `EventLoop::next`: the returned batch, the updated
loop state, how long the throttle slept, and whether the idle
`run_forever` wait was entered. -/
structure NextResult where
  events : List Event
  state : EventLoop
  slept : Nat
  blocked : Bool
deriving DecidableEq, Repr

/-- `EventLoop::next` (program.rs lines 131-156): throttle to `time_step`,
poll all pending events, block for a single event if the poll was empty and
the UI does not need updating, then reset `ui_needs_update` and stamp
`last_update`. -/
def EventLoop.next (s : EventLoop) (env : NextEnv) : NextResult :=
  let elapsed := env.now_entry - s.last_update
  let slept := if elapsed < s.time_step then s.time_step - elapsed else 0
  let blocked := env.polled.isEmpty && !s.ui_needs_update
  let events := if blocked then env.polled ++ [env.blocking_event] else env.polled
  { events := events
  , state := { s with ui_needs_update := false, last_update := env.now_exit }
  , slept := slept
  , blocked := blocked }

/-- `EventLoop::new`: `last_update` is `Instant::now()` at construction
(passed in as `now`); `ui_needs_update` starts as `true`. -/
def EventLoop.new (time_step now : Nat) : EventLoop :=
  { time_step := time_step, last_update := now, ui_needs_update := true }

/-- C1: `EventLoop::next` enters the blocking `run_forever` wait iff the
non-blocking poll drained no events and `ui_needs_update` is false; when that
branch is taken the returned batch is non-empty (the wait ends at the first
event), and more generally whenever `ui_needs_update` was false on entry the
returned batch is non-empty. -/
theorem next_blocks_iff_idle (s : EventLoop) (env : NextEnv) :
    ((s.next env).blocked = true ↔ env.polled = [] ∧ s.ui_needs_update = false) ∧
    ((s.next env).blocked = true → (s.next env).events ≠ []) ∧
    (s.ui_needs_update = false → (s.next env).events ≠ []) := by
  refine ⟨?_, ?_, ?_⟩
  · simp [EventLoop.next, List.isEmpty_iff]
  · intro h
    simp only [EventLoop.next, List.isEmpty_iff, Bool.and_eq_true, Bool.not_eq_true'] at h ⊢
    simp [h]
  · intro h
    simp only [EventLoop.next, h, List.isEmpty_iff, Bool.not_false, Bool.and_true]
    rcases hp : env.polled with _ | ⟨e, rest⟩ <;> simp [hp]

/-- Witness for C1 at a concrete idle state: `ui_needs_update = false` and an
empty poll make the call block and still return a non-empty batch. -/
theorem next_blocks_iff_idle_witness :
    ((EventLoop.mk 16 0 false).next (NextEnv.mk 5 [] (.device 3) 20)).blocked = true ∧
    ((EventLoop.mk 16 0 false).next (NextEnv.mk 5 [] (.device 3) 20)).events ≠ [] := by
  refine ⟨(next_blocks_iff_idle _ _).1.mpr ⟨rfl, rfl⟩, ?_⟩
  exact (next_blocks_iff_idle (EventLoop.mk 16 0 false)
    (NextEnv.mk 5 [] (.device 3) 20)).2.2 rfl

/-- C5: with a monotone clock (`now_entry` at or after `last_update`, and
`now_exit` at or after the end of the sleep), `EventLoop::next` sleeps exactly
`time_step - elapsed` when `elapsed < time_step` and does not sleep otherwise;
consequently the new `last_update` (the release time of this batch) is at
least `time_step` after the previous one. -/
theorem next_throttles (s : EventLoop) (env : NextEnv)
    (hT : 0 < s.time_step)
    (hmono : s.last_update ≤ env.now_entry)
    (hexit : env.now_entry + (s.next env).slept ≤ env.now_exit) :
    (env.now_entry - s.last_update < s.time_step →
      (s.next env).slept = s.time_step - (env.now_entry - s.last_update)) ∧
    (s.time_step ≤ env.now_entry - s.last_update → (s.next env).slept = 0) ∧
    s.last_update + s.time_step ≤ (s.next env).state.last_update := by
  simp only [EventLoop.next] at hexit ⊢
  refine ⟨fun h => by simp [h], fun h => by simp [Nat.not_lt.mpr h], ?_⟩
  split at hexit <;> omega

/-- Witness for C5: interval 16, previous release at 100, entry at 104
(elapsed 4, so the sleep is 12 ticks), exit at 120. -/
theorem next_throttles_witness :
    ((EventLoop.mk 16 100 true).next (NextEnv.mk 104 [] (.device 0) 120)).slept =
      16 - (104 - 100) ∧
    (100 : Nat) + 16 ≤
      ((EventLoop.mk 16 100 true).next
        (NextEnv.mk 104 [] (.device 0) 120)).state.last_update := by
  have h := next_throttles (EventLoop.mk 16 100 true) (NextEnv.mk 104 [] (.device 0) 120)
    (by decide) (by decide) (by decide)
  exact ⟨h.1 (by decide), h.2.2⟩

/-- C6: every call to `EventLoop::next`, on every branch, ends by resetting
`ui_needs_update` to false and stamping `last_update` with the exit-time clock
reading (the moment the batch is released to the caller). -/
theorem next_resets_state (s : EventLoop) (env : NextEnv) :
    (s.next env).state.ui_needs_update = false ∧
    (s.next env).state.last_update = env.now_exit :=
  ⟨rfl, rfl⟩

/-- C9: `EventLoop::new` sets `ui_needs_update` to true, so the first call to
`next` never enters the blocking idle wait; with an empty poll it returns an
empty batch without blocking. -/
theorem new_first_next_never_blocks (t now : Nat) (env : NextEnv) :
    (EventLoop.new t now).ui_needs_update = true ∧
    ((EventLoop.new t now).next env).blocked = false ∧
    (env.polled = [] → ((EventLoop.new t now).next env).events = []) := by
  refine ⟨rfl, by simp [EventLoop.new, EventLoop.next], fun h => ?_⟩
  simp [EventLoop.new, EventLoop.next, h]

/-- Witness for C9: a freshly constructed loop with an empty poll returns an
empty batch and does not block. -/
theorem new_first_next_never_blocks_witness :
    (EventLoop.new 16 7).ui_needs_update = true ∧
    ((EventLoop.new 16 7).next (NextEnv.mk 7 [] (.device 0) 9)).blocked = false ∧
    ((EventLoop.new 16 7).next (NextEnv.mk 7 [] (.device 0) 9)).events = [] := by
  have h := new_first_next_never_blocks 16 7 (NextEnv.mk 7 [] (.device 0) 9)
  exact ⟨h.1, h.2.1, h.2.2 rfl⟩

/-- C10: whenever the idle wait is entered, `run_forever` pushes exactly one
event and breaks, so the batch returned from that branch has length 1. -/
theorem blocked_batch_has_one_event (s : EventLoop) (env : NextEnv)
    (h : (s.next env).blocked = true) :
    (s.next env).events.length = 1 := by
  have hp : env.polled = [] ∧ s.ui_needs_update = false :=
    (next_blocks_iff_idle s env).1.mp h
  simp [EventLoop.next, hp.1, hp.2]

/-- Witness for C10: a concrete idle call returns a singleton batch. -/
theorem blocked_batch_has_one_event_witness :
    ((EventLoop.mk 16 0 false).next (NextEnv.mk 5 [] (.device 3) 20)).events.length = 1 :=
  blocked_batch_has_one_event (EventLoop.mk 16 0 false)
    (NextEnv.mk 5 [] (.device 3) 20) rfl

/-- The conrod `Ui`, abstracted to what the loop observes: the ordered list of
UI events delivered via `handle_event`, and the primitives that
`draw_if_changed` would currently yield (`none` when nothing changed). -/
structure Ui where
  handled : List UiEvent
  pendingPrimitives : Option Nat
deriving DecidableEq, Repr

/-- `Ui::draw_if_changed`: yields the pending primitives, or `none` when the
UI has not changed since the last redraw. -/
def Ui.draw_if_changed (ui : Ui) : Option Nat := ui.pendingPrimitives

/-- `Ui::handle_event`: deliver one translated event, appending it after all
previously delivered events. -/
def Ui.handle_event (ui : Ui) (ev : UiEvent) : Ui :=
  { ui with handled := ui.handled ++ [ev] }

/-- One render-backend invocation made by `Program::render`:
`Renderer::fill`, `Frame::clear_color`, `Renderer::draw`, `Frame::finish`. -/
inductive BackendOp where
  | fill (primitives : Nat)
  | clearColor
  | draw
  | finish
deriving DecidableEq, Repr

/-- The render backend (renderer + display surface), modelled by the trace of
invocations made on it. -/
structure RenderBackend where
  ops : List BackendOp
deriving DecidableEq, Repr

/-- Environment of one `Program::render` call: whether `Renderer::draw` and
`Frame::finish` return `Ok` (their `unwrap` panics otherwise). -/
structure RenderEnv where
  draw_ok : Bool
  finish_ok : Bool
deriving DecidableEq, Repr

/-- Whether a call ran to completion or aborted the process by panicking in
an `unwrap`. -/
inductive RenderOutcome where
  | ok
  | panicked
deriving DecidableEq, Repr

/-- The `Program` struct, restricted to the state the claims observe: the Ui,
the event loop, the render backend, and (instrumentation) the number of times
the widget-building callback `f` has been invoked by `draw`. -/
structure Program where
  ui : Ui
  event_loop : EventLoop
  backend : RenderBackend
  drawCalls : Nat
deriving DecidableEq, Repr

/-- `Program::render` (program.rs lines 48-63): if `draw_if_changed` yields
nothing, do nothing at all; otherwise `fill`, `clear_color`, then `draw`
(whose failure panics before `finish` is ever attempted) and `finish` (whose
failure also panics). -/
def Program.render (p : Program) (env : RenderEnv) : Program × RenderOutcome :=
  match p.ui.draw_if_changed with
  | none => (p, .ok)
  | some primitives =>
    let afterDraw := p.backend.ops ++ [.fill primitives, .clearColor, .draw]
    if env.draw_ok then
      if env.finish_ok then
        ({ p with ui := { p.ui with pendingPrimitives := none }
                , backend := ⟨afterDraw ++ [.finish]⟩ }, .ok)
      else
        ({ p with ui := { p.ui with pendingPrimitives := none }
                , backend := ⟨afterDraw ++ [.finish]⟩ }, .panicked)
    else
      ({ p with ui := { p.ui with pendingPrimitives := none }
              , backend := ⟨afterDraw⟩ }, .panicked)

/-- C4: when `draw_if_changed` yields nothing, `Program::render` performs no
backend operation at all (no fill, clear, draw or finish) and leaves the whole
program state, in particular the render backend, unchanged. -/
theorem render_skips_when_unchanged (p : Program) (env : RenderEnv)
    (h : p.ui.draw_if_changed = none) :
    Program.render p env = (p, .ok) := by
  simp [Program.render, h]

/-- Witness for C4 on a concrete unchanged Ui. -/
theorem render_skips_when_unchanged_witness :
    Program.render (Program.mk (Ui.mk [4] none) (EventLoop.mk 16 0 false) ⟨[]⟩ 2)
        (RenderEnv.mk true true) =
      (Program.mk (Ui.mk [4] none) (EventLoop.mk 16 0 false) ⟨[]⟩ 2, .ok) :=
  render_skips_when_unchanged
    (Program.mk (Ui.mk [4] none) (EventLoop.mk 16 0 false) ⟨[]⟩ 2)
    (RenderEnv.mk true true) rfl

/-- C8: when primitives are pending, a failing `Renderer::draw` panics
immediately — `finish` is never invoked and nothing is retried — and a failing
`Frame::finish` likewise panics; `render` never returns an error value, its
only outcomes being normal completion or a panic. -/
theorem render_failure_panics (p : Program) (env : RenderEnv) (primitives : Nat)
    (h : p.ui.draw_if_changed = some primitives) :
    (env.draw_ok = false →
      Program.render p env =
        ({ p with ui := { p.ui with pendingPrimitives := none }
                , backend := ⟨p.backend.ops ++ [.fill primitives, .clearColor, .draw]⟩ },
         .panicked)) ∧
    (env.draw_ok = true → env.finish_ok = false →
      Program.render p env =
        ({ p with ui := { p.ui with pendingPrimitives := none }
                , backend := ⟨p.backend.ops ++
                    [.fill primitives, .clearColor, .draw, .finish]⟩ },
         .panicked)) := by
  constructor
  · intro hd
    simp [Program.render, h, hd]
  · intro hd hf
    simp [Program.render, h, hd, hf]

/-- Witness for C8: concrete draw failure and concrete finish failure both
end in a panic, with the expected backend traces. -/
theorem render_failure_panics_witness :
    Program.render (Program.mk (Ui.mk [] (some 5)) (EventLoop.mk 16 0 false) ⟨[]⟩ 0)
        (RenderEnv.mk false true) =
      (Program.mk (Ui.mk [] none) (EventLoop.mk 16 0 false)
        ⟨[.fill 5, .clearColor, .draw]⟩ 0, .panicked) ∧
    Program.render (Program.mk (Ui.mk [] (some 5)) (EventLoop.mk 16 0 false) ⟨[]⟩ 0)
        (RenderEnv.mk true false) =
      (Program.mk (Ui.mk [] none) (EventLoop.mk 16 0 false)
        ⟨[.fill 5, .clearColor, .draw, .finish]⟩ 0, .panicked) :=
  ⟨(render_failure_panics
      (Program.mk (Ui.mk [] (some 5)) (EventLoop.mk 16 0 false) ⟨[]⟩ 0)
      (RenderEnv.mk false true) 5 rfl).1 rfl,
   (render_failure_panics
      (Program.mk (Ui.mk [] (some 5)) (EventLoop.mk 16 0 false) ⟨[]⟩ 0)
      (RenderEnv.mk true false) 5 rfl).2 rfl rfl⟩

/-- The `Continuation` enum of `program.rs`. -/
inductive Continuation where
  | Stop
  | Continue
deriving DecidableEq, Repr

/-- The body of the `for event in self.event_loop.next(..)` loop of
`Program::process_events`: for each raw event, first translate it with
`convert_event` and deliver a successful translation via `Ui::handle_event`
(setting `ui_needs_update`), then match on the event and return `Stop` at a
`CloseRequested` — which abandons the rest of the batch. -/
def processBatch (convert : Event → Option UiEvent) :
    Ui → Bool → List Event → Continuation × Ui × Bool
  | ui, needs_update, [] => (.Continue, ui, needs_update)
  | ui, needs_update, e :: rest =>
    let (ui', needs_update') :=
      match convert e with
      | some ev => (ui.handle_event ev, true)
      | none => (ui, needs_update)
    match e with
    | .window .closeRequested => (.Stop, ui', needs_update')
    | _ => processBatch convert ui' needs_update' rest

/-- `Program::process_events` (program.rs lines 64-81): fetch the next batch
from the event loop and run the translation/close-detection loop over it,
writing the resulting `ui_needs_update` back into the event loop. -/
def Program.process_events (convert : Event → Option UiEvent)
    (p : Program) (env : NextEnv) : Continuation × Program :=
  let r := p.event_loop.next env
  let (c, ui', needs_update') := processBatch convert p.ui r.state.ui_needs_update r.events
  (c, { p with ui := ui'
             , event_loop := { r.state with ui_needs_update := needs_update' } })

/-- The prefix of a batch that `process_events` actually visits: everything up
to and including the first `CloseRequested` event, or the whole batch when
there is none. -/
def takeToClose : List Event → List Event
  | [] => []
  | e :: rest => if e.isCloseRequested then [e] else e :: takeToClose rest

/-- Characterisation of the `process_events` loop body: the continuation is
`Stop` iff the batch contains a close request, the delivered UI events are the
translations (in order) of the visited prefix `takeToClose`, and
`ui_needs_update` is raised iff some visited event translated. -/
theorem processBatch_eq (convert : Event → Option UiEvent)
    (batch : List Event) (ui : Ui) (needs_update : Bool) :
    processBatch convert ui needs_update batch =
      ((if batch.any Event.isCloseRequested then Continuation.Stop else .Continue),
       { ui with handled := ui.handled ++ (takeToClose batch).filterMap convert },
       (needs_update || (takeToClose batch).any fun e => (convert e).isSome)) := by
  induction batch generalizing ui needs_update with
  | nil => simp [processBatch, takeToClose]
  | cons e rest ih =>
    rcases e with we | tag
    · rcases we with _ | tag
      · rcases hc : convert (.window .closeRequested) with _ | ev <;>
          simp [processBatch, takeToClose, Event.isCloseRequested, Ui.handle_event, hc]
      · rcases hc : convert (.window (.other tag)) with _ | ev <;>
          simp [processBatch, takeToClose, Event.isCloseRequested, Ui.handle_event, hc,
            ih, Bool.or_assoc]
    · rcases hc : convert (.device tag) with _ | ev <;>
        simp [processBatch, takeToClose, Event.isCloseRequested, Ui.handle_event, hc,
          ih, Bool.or_assoc]

/-- `Program::draw`: run the widget-building callback `f` over
`ui.set_widgets()`; its observable effect here is that the callback has been
invoked once more and the Ui now has whatever primitives the rebuild left
pending for `draw_if_changed`. -/
def Program.draw (p : Program) (builtPrimitives : Option Nat) : Program :=
  { p with drawCalls := p.drawCalls + 1
         , ui := { p.ui with pendingPrimitives := builtPrimitives } }

/-- How one iteration of the `'main` loop ends: `process_events` said `Stop`,
the iteration completed normally, or an `unwrap` in `render` panicked. -/
inductive StepResult where
  | stopped (p : Program)
  | continued (p : Program)
  | panicked (p : Program)
deriving DecidableEq, Repr

/-- Environment of one iteration of `Program::run`: the event-source/clock
environment for `EventLoop::next`, the primitives the widget rebuild leaves
pending, and the render backend's outcomes. -/
structure StepEnv where
  nextEnv : NextEnv
  builtPrimitives : Option Nat
  renderEnv : RenderEnv
deriving DecidableEq, Repr

/-- One iteration of the `'main` loop of `Program::run`: `process_events`,
and — only if it did not say `Stop` — `draw` then `render`. -/
def Program.runStep (convert : Event → Option UiEvent)
    (p : Program) (env : StepEnv) : StepResult :=
  match Program.process_events convert p env.nextEnv with
  | (.Stop, p1) => .stopped p1
  | (.Continue, p1) =>
    match Program.render (p1.draw env.builtPrimitives) env.renderEnv with
    | (p3, .ok) => .continued p3
    | (p3, .panicked) => .panicked p3

/-- How `Program::run` ended: the close signal broke the `'main` loop
(`closed`), an `unwrap` aborted the process (`panicked`), or the modelling
fuel (the list of per-iteration environments) ran out while the real loop
would keep going (`fuelExhausted`). -/
inductive RunOutcome where
  | closed
  | panicked
  | fuelExhausted
deriving DecidableEq, Repr

/-- Result of `Program::run`: final state, how it ended, and the trace of the
batches fetched from `EventLoop::next`, in fetch order. -/
structure RunResult where
  final : Program
  outcome : RunOutcome
  batches : List (List Event)
deriving DecidableEq, Repr

/-- `Program::run` (program.rs lines 89-101): repeat `process_events`;
`break 'main` on `Stop`; otherwise `draw` then `render`.  The list of
per-iteration environments is the modelling fuel; `run` returns no value in
the source, so the returned state/trace is pure instrumentation. -/
def Program.run (convert : Event → Option UiEvent) (p : Program) :
    List StepEnv → RunResult
  | [] => ⟨p, .fuelExhausted, []⟩
  | env :: rest =>
    let batch := (p.event_loop.next env.nextEnv).events
    match Program.runStep convert p env with
    | .stopped p1 => ⟨p1, .closed, [batch]⟩
    | .panicked p1 => ⟨p1, .panicked, [batch]⟩
    | .continued p1 =>
      let r := Program.run convert p1 rest
      ⟨r.final, r.outcome, batch :: r.batches⟩

/-- `process_events`, in closed form: `Stop` iff the fetched batch contains a
close request; the Ui receives the translations of the visited prefix in
order; the event loop keeps the state `next` left, except that
`ui_needs_update` is raised iff some visited event translated. -/
theorem process_events_eq (convert : Event → Option UiEvent)
    (p : Program) (env : NextEnv) :
    Program.process_events convert p env =
      ((if ((p.event_loop.next env).events).any Event.isCloseRequested
          then Continuation.Stop else .Continue),
       { p with
           ui := { p.ui with handled := p.ui.handled ++
                     (takeToClose ((p.event_loop.next env).events)).filterMap convert }
         , event_loop := { (p.event_loop.next env).state with
             ui_needs_update :=
               (takeToClose ((p.event_loop.next env).events)).any
                 fun e => (convert e).isSome } }) := by
  have hnu : (p.event_loop.next env).state.ui_needs_update = false := rfl
  simp [Program.process_events, processBatch_eq, hnu]

/-- `render` never touches the list of delivered UI events nor the count of
widget-callback invocations. -/
theorem render_preserves_handled (p : Program) (env : RenderEnv) :
    ((Program.render p env).1).ui.handled = p.ui.handled ∧
    ((Program.render p env).1).drawCalls = p.drawCalls := by
  rcases h : p.ui.draw_if_changed with _ | primitives <;>
    rcases hd : env.draw_ok <;> rcases hf : env.finish_ok <;>
      simp [Program.render, h, hd, hf]

/-- When the fetched batch contains a close request, the iteration stops right
after `process_events`, with the state it produced. -/
theorem runStep_stop (convert : Event → Option UiEvent) (p : Program) (env : StepEnv)
    (h : (((p.event_loop.next env.nextEnv).events).any Event.isCloseRequested) = true) :
    Program.runStep convert p env =
      .stopped (Program.process_events convert p env.nextEnv).2 := by
  simp [Program.runStep, process_events_eq, h]

/-- When the fetched batch contains no close request, the iteration proceeds
to `draw` and `render`, ending `continued` or `panicked` with `render`'s
state. -/
theorem runStep_no_close (convert : Event → Option UiEvent) (p : Program) (env : StepEnv)
    (h : (((p.event_loop.next env.nextEnv).events).any Event.isCloseRequested) = false) :
    Program.runStep convert p env =
      match Program.render
          (((Program.process_events convert p env.nextEnv).2).draw env.builtPrimitives)
          env.renderEnv with
      | (p3, .ok) => StepResult.continued p3
      | (p3, .panicked) => StepResult.panicked p3 := by
  simp [Program.runStep, process_events_eq, h]

/-- The `'main` loop terminates through its `break` iff one of the fetched
batches contains a close request. -/
theorem run_closed_iff (convert : Event → Option UiEvent) (envs : List StepEnv) :
    ∀ p : Program,
      (Program.run convert p envs).outcome = .closed ↔
        ∃ b ∈ (Program.run convert p envs).batches,
          b.any Event.isCloseRequested = true := by
  induction envs with
  | nil => intro p; simp [Program.run]
  | cons env rest ih =>
    intro p
    rcases hany : (((p.event_loop.next env.nextEnv).events).any Event.isCloseRequested) with _ | _
    · rcases hr : Program.render
          (((Program.process_events convert p env.nextEnv).2).draw env.builtPrimitives)
          env.renderEnv with ⟨p3, oc⟩
      have hst := runStep_no_close convert p env hany
      rw [hr] at hst
      cases oc
      · simp only at hst
        simp only [Program.run, hst]
        rw [ih p3]
        constructor
        · rintro ⟨b, hb, hcb⟩
          exact ⟨b, List.mem_cons_of_mem _ hb, hcb⟩
        · rintro ⟨b, hb, hcb⟩
          rcases List.mem_cons.mp hb with hb | hb
          · exact absurd (hb ▸ hcb) (by simp [hany])
          · exact ⟨b, hb, hcb⟩
      · simp only at hst
        simp only [Program.run, hst]
        constructor
        · intro h; exact absurd h (by simp)
        · rintro ⟨b, hb, hcb⟩
          rcases List.mem_singleton.mp hb with rfl
          exact absurd hcb (by simp [hany])
    · have hst := runStep_stop convert p env hany
      simp only [Program.run, hst]
      constructor
      · intro _
        exact ⟨_, List.mem_singleton_self _, hany⟩
      · intro _; trivial

/-- Across the whole run, the Ui's delivered-event list grows by exactly the
translations of the visited prefix of each fetched batch, batch after batch,
in order. -/
theorem run_handled (convert : Event → Option UiEvent) (envs : List StepEnv) :
    ∀ p : Program,
      (Program.run convert p envs).final.ui.handled =
        p.ui.handled ++
          ((Program.run convert p envs).batches.map
            fun b => (takeToClose b).filterMap convert).flatten := by
  induction envs with
  | nil => intro p; simp [Program.run]
  | cons env rest ih =>
    intro p
    have hpe : (Program.process_events convert p env.nextEnv).2.ui.handled =
        p.ui.handled ++
          (takeToClose ((p.event_loop.next env.nextEnv).events)).filterMap convert := by
      rw [process_events_eq]
    rcases hany : (((p.event_loop.next env.nextEnv).events).any Event.isCloseRequested) with _ | _
    · rcases hr : Program.render
          (((Program.process_events convert p env.nextEnv).2).draw env.builtPrimitives)
          env.renderEnv with ⟨p3, oc⟩
      have h3 : p3.ui.handled =
          p.ui.handled ++
            (takeToClose ((p.event_loop.next env.nextEnv).events)).filterMap convert := by
        have := (render_preserves_handled
          (((Program.process_events convert p env.nextEnv).2).draw env.builtPrimitives)
          env.renderEnv).1
        rw [hr] at this
        simpa [Program.draw, hpe] using this
      have hst := runStep_no_close convert p env hany
      rw [hr] at hst
      cases oc
      · simp only at hst
        simp [Program.run, hst, ih p3, h3]
      · simp only at hst
        simp [Program.run, hst, h3]
    · have hst := runStep_stop convert p env hany
      simp [Program.run, hst, hpe]

/-- A translation that converts every raw event to the UI event `7`. -/
def convertConst : Event → Option UiEvent := fun _ => some 7

/-- A translation that converts exactly the device events (to their tag). -/
def convertDevice : Event → Option UiEvent
  | .device n => some n
  | _ => none

/-- A fresh program state: nothing delivered, idle backend, fresh event loop. -/
def freshProgram : Program :=
  Program.mk (Ui.mk [] none) (EventLoop.new 16 0) ⟨[]⟩ 0

/-- An iteration whose poll yields a close request followed by another window
event. -/
def closeThenOtherStep : StepEnv :=
  StepEnv.mk
    (NextEnv.mk 0 [Event.window .closeRequested, Event.window (.other 0)] (.device 0) 1)
    none (RenderEnv.mk true true)

/-- An iteration whose poll yields a close request followed by a device
event. -/
def closeThenDeviceStep : StepEnv :=
  StepEnv.mk
    (NextEnv.mk 0 [Event.window .closeRequested, Event.device 5] (.device 0) 1)
    none (RenderEnv.mk true true)

/-- C2 counterexample: with a batch whose close request is followed by a
further translatable event, `run` terminates but the later event is never
translated or delivered — only the close event's translation reaches the Ui,
although the whole batch translates to two UI events. -/
theorem run_close_skips_rest_of_batch_cex :
    (Program.run convertConst freshProgram [closeThenOtherStep]).outcome = .closed ∧
    (Program.run convertConst freshProgram [closeThenOtherStep]).final.ui.handled = [7] ∧
    ((freshProgram.event_loop.next closeThenOtherStep.nextEnv).events).filterMap convertConst
      = [7, 7] ∧
    (Program.run convertConst freshProgram [closeThenOtherStep]).final.ui.handled ≠
      ((freshProgram.event_loop.next closeThenOtherStep.nextEnv).events).filterMap
        convertConst := by
  decide

/-- C2 (amended): when a close request occurs in a batch, `run` terminates
after translating and delivering only the events up to and including the
first close request; events after it in the batch are skipped.
`process_events` returns `Stop` exactly when the fetched batch contains a
close request, and the Ui receives exactly the in-order translations of the
`takeToClose` prefix. -/
theorem process_events_stops_at_close (convert : Event → Option UiEvent)
    (p : Program) (env : NextEnv) :
    ((Program.process_events convert p env).1 = .Stop ↔
      ((p.event_loop.next env).events).any Event.isCloseRequested = true) ∧
    (Program.process_events convert p env).2.ui.handled =
      p.ui.handled ++ (takeToClose ((p.event_loop.next env).events)).filterMap convert := by
  rw [process_events_eq]
  refine ⟨?_, rfl⟩
  rcases h : ((p.event_loop.next env).events).any Event.isCloseRequested with _ | _ <;>
    simp [h]

/-- Witness for the amended C2 at a concrete close-bearing batch. -/
theorem process_events_stops_at_close_witness :
    (Program.process_events convertConst freshProgram closeThenOtherStep.nextEnv).1 =
      .Stop ∧
    (Program.process_events convertConst freshProgram closeThenOtherStep.nextEnv).2.ui.handled =
      [] ++ (takeToClose
        ((freshProgram.event_loop.next closeThenOtherStep.nextEnv).events)).filterMap
          convertConst := by
  have h := process_events_stops_at_close convertConst freshProgram closeThenOtherStep.nextEnv
  exact ⟨h.1.mpr (by decide), h.2⟩

/-- C3: the `'main` loop of `run` breaks exactly when a fetched batch contains
a close request (`process_events` returns `Stop`); in the iteration observing
it, the loop stops right after `process_events` — the widget-building
callback is not invoked (`drawCalls` unchanged) and no render-backend call is
made (`backend` unchanged).  In the source `run` returns `()`. -/
theorem run_exits_only_on_close (convert : Event → Option UiEvent)
    (p : Program) (envs : List StepEnv) :
    ((Program.run convert p envs).outcome = .closed ↔
      ∃ b ∈ (Program.run convert p envs).batches,
        b.any Event.isCloseRequested = true) ∧
    (∀ q (env : StepEnv), (Program.process_events convert q env.nextEnv).1 = .Stop →
      Program.runStep convert q env =
        .stopped (Program.process_events convert q env.nextEnv).2 ∧
      (Program.process_events convert q env.nextEnv).2.drawCalls = q.drawCalls ∧
      (Program.process_events convert q env.nextEnv).2.backend = q.backend) := by
  refine ⟨run_closed_iff convert envs p, ?_⟩
  intro q env h
  rw [process_events_eq] at h
  by_cases hc : ((q.event_loop.next env.nextEnv).events).any Event.isCloseRequested = true
  · exact ⟨runStep_stop convert q env hc, by rw [process_events_eq], by rw [process_events_eq]⟩
  · simp [hc] at h

/-- Witness for C3: a run over one close-bearing batch ends `closed`, and that
iteration stops right at `process_events`. -/
theorem run_exits_only_on_close_witness :
    (Program.run convertConst freshProgram [closeThenOtherStep]).outcome = .closed ∧
    Program.runStep convertConst freshProgram closeThenOtherStep =
      .stopped (Program.process_events convertConst freshProgram
        closeThenOtherStep.nextEnv).2 := by
  have h := run_exits_only_on_close convertConst freshProgram [closeThenOtherStep]
  refine ⟨h.1.mpr
      ⟨(freshProgram.event_loop.next closeThenOtherStep.nextEnv).events, ?_, ?_⟩,
    (h.2 freshProgram closeThenOtherStep ?_).1⟩
  · decide
  · decide
  · decide

/-- C7 counterexample: in the batch `[close request, device 5]`, with a
translation that converts device events, `process_events` never visits the
device event — its translation yields a UI event, yet nothing is delivered. -/
theorem process_order_cex :
    Event.device 5 ∈ (freshProgram.event_loop.next closeThenDeviceStep.nextEnv).events ∧
    (convertDevice (Event.device 5)).isSome = true ∧
    (Program.process_events convertDevice freshProgram
      closeThenDeviceStep.nextEnv).2.ui.handled = [] := by
  decide

/-- C7 (amended): within a batch, `process_events` visits, in platform order,
the events up to and including the first close request (the entire batch when
there is none), delivering their successful translations in that order and
raising `ui_needs_update` iff one of them translated; across `run`, batches
are strictly sequential — the Ui's delivered list is the concatenation, in
fetch order, of each fetched batch's delivered prefix. -/
theorem events_processed_in_order (convert : Event → Option UiEvent)
    (ui : Ui) (needs_update : Bool) (batch : List Event)
    (p : Program) (envs : List StepEnv) :
    processBatch convert ui needs_update batch =
      ((if batch.any Event.isCloseRequested then Continuation.Stop else .Continue),
       { ui with handled := ui.handled ++ (takeToClose batch).filterMap convert },
       (needs_update || (takeToClose batch).any fun e => (convert e).isSome)) ∧
    (Program.run convert p envs).final.ui.handled =
      p.ui.handled ++
        ((Program.run convert p envs).batches.map
          fun b => (takeToClose b).filterMap convert).flatten :=
  ⟨processBatch_eq convert batch ui needs_update, run_handled convert envs p⟩
